import Mathlib

/-!
Shallow embedding of the transfer-and-verification core of `vegh/cli.py`
(the `send` command with its direct and chunked upload paths, and the
`check` command's metadata display), together with theorems settling the
spec claims about it.
-/

namespace Vegh

/-- Constant `CHUNK_THRESHOLD = 100 * 1024 * 1024` from cli.py line 38. -/
def CHUNK_THRESHOLD : Nat := 100 * 1024 * 1024

/-- Constant `CHUNK_SIZE = 10 * 1024 * 1024` from cli.py line 39. -/
def CHUNK_SIZE : Nat := 10 * 1024 * 1024

/-- Constant `CONCURRENT_WORKERS = 4` from cli.py line 40. -/
def CONCURRENT_WORKERS : Nat := 4

/-- Number of chunks computed by `_send_chunked`:
`total_chunks = math.ceil(file_size / CHUNK_SIZE)` (cli.py line 368),
as ceiling division on naturals. -/
def totalChunks (fileSize : Nat) : Nat :=
  (fileSize + CHUNK_SIZE - 1) / CHUNK_SIZE

/-- One byte-range slice of a chunked transfer, as materialized by the
loop in `_send_chunked` (cli.py lines 381-384). -/
structure ChunkTask where
  index : Nat
  offset : Nat
  length : Nat
deriving Repr, DecidableEq

/-- The task submitted for chunk `i` in `_send_chunked`:
`start = i * CHUNK_SIZE; current_size = min(CHUNK_SIZE, file_size - start)`
(cli.py lines 382-383). -/
def mkChunkTask (fileSize i : Nat) : ChunkTask :=
  { index := i, offset := i * CHUNK_SIZE,
    length := min CHUNK_SIZE (fileSize - i * CHUNK_SIZE) }

/-- All chunk tasks materialized by `_send_chunked` for one file:
`for i in range(total_chunks)` (cli.py lines 381-384). -/
def chunkTasks (fileSize : Nat) : List ChunkTask :=
  (List.range (totalChunks fileSize)).map (mkChunkTask fileSize)

lemma chunkTasks_mem_iff (fileSize : Nat) (t : ChunkTask) :
    t ∈ chunkTasks fileSize ↔
      ∃ i, i < totalChunks fileSize ∧ t = mkChunkTask fileSize i := by
  simp only [chunkTasks, List.mem_map, List.mem_range]
  constructor
  · rintro ⟨i, hi, rfl⟩
    exact ⟨i, hi, rfl⟩
  · rintro ⟨i, hi, rfl⟩
    exact ⟨i, hi, rfl⟩

lemma le_totalChunks_mul (fileSize : Nat) :
    fileSize ≤ totalChunks fileSize * CHUNK_SIZE := by
  simp only [totalChunks, CHUNK_SIZE]
  omega

lemma totalChunks_pos (fileSize : Nat) (h : 1 ≤ fileSize) :
    1 ≤ totalChunks fileSize := by
  simp only [totalChunks, CHUNK_SIZE]
  omega

lemma totalChunks_pred_mul_lt (fileSize : Nat) (h : 1 ≤ fileSize) :
    (totalChunks fileSize - 1) * CHUNK_SIZE < fileSize := by
  simp only [totalChunks, CHUNK_SIZE]
  omega

/-- C1: for every `fileSize ≥ 1`, `_send_chunked` materializes exactly
`totalChunks = ceil(fileSize/CHUNK_SIZE)` chunk tasks; task `i` has
offset `i * CHUNK_SIZE` and length `min(CHUNK_SIZE, fileSize - offset)`;
the byte ranges partition `[0, fileSize)` with no gap and no overlap;
and the last task's length equals
`fileSize - (totalChunks - 1) * CHUNK_SIZE`. -/
theorem chunk_partition (fs : Nat) (hfs : 1 ≤ fs) :
    (chunkTasks fs).length = totalChunks fs
  ∧ (∀ t ∈ chunkTasks fs,
       t.index < totalChunks fs
     ∧ t.offset = t.index * CHUNK_SIZE
     ∧ t.length = min CHUNK_SIZE (fs - t.offset))
  ∧ (∀ i, i < totalChunks fs → mkChunkTask fs i ∈ chunkTasks fs)
  ∧ (∀ b, b < fs ↔ ∃ t ∈ chunkTasks fs, t.offset ≤ b ∧ b < t.offset + t.length)
  ∧ (∀ t₁ ∈ chunkTasks fs, ∀ t₂ ∈ chunkTasks fs, t₁ ≠ t₂ →
       ∀ b, ¬(t₁.offset ≤ b ∧ b < t₁.offset + t₁.length
            ∧ t₂.offset ≤ b ∧ b < t₂.offset + t₂.length))
  ∧ (chunkTasks fs).getLast? = some (mkChunkTask fs (totalChunks fs - 1))
  ∧ (mkChunkTask fs (totalChunks fs - 1)).length
      = fs - (totalChunks fs - 1) * CHUNK_SIZE := by
  refine ⟨?_, ?_, ?_, ?_, ?_, ?_, ?_⟩
  · simp [chunkTasks]
  · intro t ht
    rcases (chunkTasks_mem_iff fs t).1 ht with ⟨i, hi, rfl⟩
    exact ⟨hi, rfl, rfl⟩
  · intro i hi
    exact (chunkTasks_mem_iff fs _).2 ⟨i, hi, rfl⟩
  · intro b
    constructor
    · intro hb
      refine ⟨mkChunkTask fs (b / CHUNK_SIZE),
        (chunkTasks_mem_iff fs _).2 ⟨b / CHUNK_SIZE, ?_, rfl⟩, ?_, ?_⟩
      · have := le_totalChunks_mul fs
        simp only [totalChunks, CHUNK_SIZE] at *
        omega
      · simp only [mkChunkTask, CHUNK_SIZE]
        omega
      · simp only [mkChunkTask, CHUNK_SIZE]
        omega
    · rintro ⟨t, ht, h1, h2⟩
      rcases (chunkTasks_mem_iff fs t).1 ht with ⟨i, hi, rfl⟩
      simp only [mkChunkTask, CHUNK_SIZE] at h1 h2
      omega
  · intro t₁ ht₁ t₂ ht₂ hne b hcontra
    rcases (chunkTasks_mem_iff fs t₁).1 ht₁ with ⟨i, hi, rfl⟩
    rcases (chunkTasks_mem_iff fs t₂).1 ht₂ with ⟨j, hj, rfl⟩
    have hij : i ≠ j := by
      intro h
      exact hne (by rw [h])
    simp only [mkChunkTask, CHUNK_SIZE] at hcontra
    omega
  · have hn : totalChunks fs = (totalChunks fs - 1) + 1 := by
      have := totalChunks_pos fs hfs
      omega
    rw [chunkTasks, hn, List.range_succ, List.map_append, List.map_singleton,
      List.getLast?_concat]
    simp
  · have h1 := le_totalChunks_mul fs
    have h2 := totalChunks_pos fs hfs
    simp only [mkChunkTask, CHUNK_SIZE, totalChunks] at *
    omega

/-- Witness for C1 at the concrete file size 1. -/
theorem chunk_partition_witness :
    1 ≤ 1
  ∧ ((chunkTasks 1).length = totalChunks 1
  ∧ (∀ t ∈ chunkTasks 1,
       t.index < totalChunks 1
     ∧ t.offset = t.index * CHUNK_SIZE
     ∧ t.length = min CHUNK_SIZE (1 - t.offset))
  ∧ (∀ i, i < totalChunks 1 → mkChunkTask 1 i ∈ chunkTasks 1)
  ∧ (∀ b, b < 1 ↔ ∃ t ∈ chunkTasks 1, t.offset ≤ b ∧ b < t.offset + t.length)
  ∧ (∀ t₁ ∈ chunkTasks 1, ∀ t₂ ∈ chunkTasks 1, t₁ ≠ t₂ →
       ∀ b, ¬(t₁.offset ≤ b ∧ b < t₁.offset + t₁.length
            ∧ t₂.offset ≤ b ∧ b < t₂.offset + t₂.length))
  ∧ (chunkTasks 1).getLast? = some (mkChunkTask 1 (totalChunks 1 - 1))
  ∧ (mkChunkTask 1 (totalChunks 1 - 1)).length
      = 1 - (totalChunks 1 - 1) * CHUNK_SIZE) :=
  ⟨Nat.le_refl 1, chunk_partition 1 (Nat.le_refl 1)⟩

/-- Outcome of one HTTP request as seen by the caller: either a response
with a status code, or a transport-level exception with a message. -/
inductive HttpResponse where
  | status (code : Nat)
  | netError (msg : String)
deriving Repr, DecidableEq

/-- The failure raised by `_upload_chunk` (cli.py lines 300-304): it
carries the failing chunk's index and the underlying reason; cli.py
renders it as the string `"Chunk {index} error: {reason}"`. -/
structure ChunkError where
  index : Nat
  reason : String
deriving Repr, DecidableEq

/-- The exception message format of `_upload_chunk` (cli.py line 304). -/
def chunkErrorMsg (e : ChunkError) : String :=
  "Chunk " ++ toString e.index ++ " error: " ++ e.reason

/-- `_upload_chunk` (cli.py lines 286-304): issues one request for the
chunk; succeeds iff `200 <= resp.status_code < 300` (line 300); a bad
status raises `"Status {code}"` and a transport exception propagates its
message; either is wrapped with the chunk's index (line 304). -/
def uploadChunk (index : Nat) (resp : HttpResponse) : Except ChunkError Unit :=
  match resp with
  | HttpResponse.status code =>
      if 200 ≤ code ∧ code < 300 then Except.ok ()
      else Except.error { index := index, reason := "Status " ++ toString code }
  | HttpResponse.netError msg => Except.error { index := index, reason := msg }

/-- Base headers built in `send` (cli.py lines 333-335): empty, except
`Authorization: Bearer <token>` when an auth token is configured. -/
def baseHeaders (authToken : Option String) : List (String × String) :=
  match authToken with
  | some t => [("Authorization", "Bearer " ++ t)]
  | none => []

/-- Headers of one chunk request (cli.py lines 292-297): the base headers
plus `X-File-Name`, `X-Chunk-Index` and `X-Total-Chunks`. -/
def chunkHeaders (base : List (String × String)) (filename : String)
    (index total : Nat) : List (String × String) :=
  base ++ [("X-File-Name", filename),
           ("X-Chunk-Index", toString index),
           ("X-Total-Chunks", toString total)]

/-- Outcome of `_send_direct` (cli.py lines 345-365): success iff
`response.status_code in range(200, 300)`; otherwise the failed status
is reported; a transport exception is reported as a network error. -/
inductive DirectOutcome where
  | ok
  | failedStatus (code : Nat)
  | networkError (msg : String)
deriving Repr, DecidableEq

/-- `_send_direct` (cli.py lines 345-365) as a function of the single
response it observes. -/
def sendDirect (resp : HttpResponse) : DirectOutcome :=
  match resp with
  | HttpResponse.status code =>
      if 200 ≤ code ∧ code < 300 then DirectOutcome.ok
      else DirectOutcome.failedStatus code
  | HttpResponse.netError msg => DirectOutcome.networkError msg

/-- Transfer mode chosen by `send`. -/
inductive Mode where
  | direct
  | chunked
deriving Repr, DecidableEq

/-- The routing decision in `send` (cli.py lines 338-343):
`if file_size < CHUNK_THRESHOLD and not force_chunk:` direct upload,
`else:` concurrent chunked upload. -/
def plan (fileSize : Nat) (forceChunk : Bool) : Mode :=
  if fileSize < CHUNK_THRESHOLD ∧ forceChunk = false then Mode.direct
  else Mode.chunked

/-- Terminal outcome of a chunked job in `_send_chunked`
(cli.py lines 386-394). -/
inductive JobResult where
  | success
  | aborted (e : ChunkError)
deriving Repr, DecidableEq

/-- Orchestrator state of `_send_chunked`: the progress counter
(`progress.advance(task_id, 1)`, cli.py line 389, starting from 0) and
the terminal result once one is known. -/
structure OrchState where
  completed : Nat
  result : Option JobResult
deriving Repr, DecidableEq

/-- Processing of one completed future in the `as_completed` loop of
`_send_chunked` (cli.py lines 386-392): while no terminal result is
known, a successful chunk advances the counter by 1 and a failed chunk
aborts the job with that chunk's error; after a terminal result the loop
has exited, so nothing further changes. -/
def observe (outcomes : Nat → Except ChunkError Unit) (s : OrchState)
    (i : Nat) : OrchState :=
  match s.result with
  | some _ => s
  | none =>
      match outcomes i with
      | Except.ok _ => { s with completed := s.completed + 1 }
      | Except.error e => { s with result := some (JobResult.aborted e) }

/-- The `as_completed` loop of `_send_chunked` run from a given state
over a given completion order. -/
def runFrom (outcomes : Nat → Except ChunkError Unit) (s : OrchState)
    (order : List Nat) : OrchState :=
  order.foldl (observe outcomes) s

/-- The whole `as_completed` loop of `_send_chunked`, starting from a
fresh progress counter. -/
def runChunked (outcomes : Nat → Except ChunkError Unit)
    (order : List Nat) : OrchState :=
  runFrom outcomes { completed := 0, result := none } order

/-- Job-level result of `_send_chunked`: the abort raised inside the
loop if any, else the success reported after the loop (cli.py line 394). -/
def jobResult (outcomes : Nat → Except ChunkError Unit)
    (order : List Nat) : JobResult :=
  match (runChunked outcomes order).result with
  | some r => r
  | none => JobResult.success

/-- Overall outcome of the `send` command (cli.py lines 306-343). -/
inductive SendOutcome where
  | errFileNotFound
  | errNoUrl
  | direct (o : DirectOutcome)
  | chunked (r : JobResult)
deriving Repr, DecidableEq

/-- Result of one `send` invocation: its outcome, the process exit code,
and the number of upload requests issued. -/
structure SendResult where
  outcome : SendOutcome
  exitCode : Nat
  requests : Nat
deriving Repr, DecidableEq

/-- The `send` command (cli.py lines 306-343): a missing file exits 1
before any network activity (lines 314-316); a missing URL exits 1
(lines 323-325); the direct path issues one request and always returns
normally (exit 0) because `_send_direct` prints failures without raising
(lines 356-365); the chunked path submits one request per chunk and
exits 1 exactly when the job aborts (lines 386-392). -/
def send (fileExists : Bool) (fileSize : Nat) (url : Option String)
    (forceChunk : Bool) (directResp : HttpResponse)
    (chunkResp : Nat → HttpResponse) (order : List Nat) : SendResult :=
  if fileExists = false then
    { outcome := SendOutcome.errFileNotFound, exitCode := 1, requests := 0 }
  else if url = none then
    { outcome := SendOutcome.errNoUrl, exitCode := 1, requests := 0 }
  else
    match plan fileSize forceChunk with
    | Mode.direct =>
        { outcome := SendOutcome.direct (sendDirect directResp),
          exitCode := 0, requests := 1 }
    | Mode.chunked =>
        let r := jobResult (fun i => uploadChunk i (chunkResp i)) order
        { outcome := SendOutcome.chunked r,
          exitCode := match r with
            | JobResult.success => 0
            | JobResult.aborted _ => 1,
          requests := totalChunks fileSize }

/-- C2: `send` selects the direct path iff `fileSize < CHUNK_THRESHOLD`
and `forceChunk` is false; it selects the chunked path iff
`fileSize ≥ CHUNK_THRESHOLD` or `forceChunk` is true; in particular a
file of exactly `CHUNK_THRESHOLD` bytes is routed to chunked. -/
theorem plan_rule (s : Nat) (f : Bool) :
    (plan s f = Mode.direct ↔ s < CHUNK_THRESHOLD ∧ f = false)
  ∧ (plan s f = Mode.chunked ↔ CHUNK_THRESHOLD ≤ s ∨ f = true)
  ∧ plan CHUNK_THRESHOLD f = Mode.chunked := by
  refine ⟨?_, ?_, ?_⟩ <;>
    rcases f with _ | _ <;>
      simp only [plan, CHUNK_THRESHOLD] <;>
        split <;> simp_all <;> omega

/-- C4: in both the direct path and the per-chunk path, an upload is
declared successful iff the response status lies strictly in
`[200, 300)`; any other status and any transport exception produce a
failure outcome. -/
theorem success_criterion (i : Nat) (r : HttpResponse) :
    (uploadChunk i r = Except.ok () ↔
       ∃ c, r = HttpResponse.status c ∧ 200 ≤ c ∧ c < 300)
  ∧ (sendDirect r = DirectOutcome.ok ↔
       ∃ c, r = HttpResponse.status c ∧ 200 ≤ c ∧ c < 300)
  ∧ (∀ m, r = HttpResponse.netError m →
       uploadChunk i r = Except.error { index := i, reason := m }
     ∧ sendDirect r = DirectOutcome.networkError m)
  ∧ (∀ c, r = HttpResponse.status c → ¬(200 ≤ c ∧ c < 300) →
       uploadChunk i r
         = Except.error { index := i, reason := "Status " ++ toString c }
     ∧ sendDirect r = DirectOutcome.failedStatus c) := by
  refine ⟨?_, ?_, ?_, ?_⟩
  · rcases r with c | m
    · simp only [uploadChunk]
      split <;> simp_all <;> omega
    · simp [uploadChunk]
  · rcases r with c | m
    · simp only [sendDirect]
      split <;> simp_all <;> omega
    · simp [sendDirect]
  · rintro m rfl
    exact ⟨rfl, rfl⟩
  · rintro c rfl hc
    simp only [uploadChunk, sendDirect]
    rw [if_neg hc, if_neg hc]
    exact ⟨rfl, rfl⟩

/-- Witness for C4 at status 500 (the hypothesis-bearing conjuncts
instantiated concretely). -/
theorem success_criterion_witness :
    uploadChunk 1 (HttpResponse.status 500)
      = Except.error { index := 1, reason := "Status " ++ toString 500 }
  ∧ sendDirect (HttpResponse.status 500) = DirectOutcome.failedStatus 500 :=
  (success_criterion 1 (HttpResponse.status 500)).2.2.2 500 rfl (by decide)

/-- C5: every chunk request carries exactly the headers `X-File-Name`,
`X-Chunk-Index`, `X-Total-Chunks`, plus `Authorization: Bearer <token>`
when a token is configured; and across two chunk requests of one job the
headers agree on every key other than `X-Chunk-Index`. -/
theorem chunk_headers_exact (tok : Option String) (fn : String)
    (total i : Nat) :
    (∀ kv, kv ∈ chunkHeaders (baseHeaders tok) fn i total ↔
        (kv = ("X-File-Name", fn)
       ∨ kv = ("X-Chunk-Index", toString i)
       ∨ kv = ("X-Total-Chunks", toString total)
       ∨ ∃ t, tok = some t ∧ kv = ("Authorization", "Bearer " ++ t)))
  ∧ (∀ j k v, k ≠ "X-Chunk-Index" →
      ((k, v) ∈ chunkHeaders (baseHeaders tok) fn i total ↔
       (k, v) ∈ chunkHeaders (baseHeaders tok) fn j total)) := by
  constructor
  · intro kv
    rcases tok with _ | t <;> simp [chunkHeaders, baseHeaders] <;> tauto
  · intro j k v hk
    rcases tok with _ | t
    · simp only [chunkHeaders, baseHeaders, List.nil_append, List.mem_cons,
        List.not_mem_nil, or_false, Prod.mk.injEq]
      constructor
      · rintro (⟨rfl, rfl⟩ | ⟨rfl, rfl⟩ | ⟨rfl, rfl⟩)
        · exact Or.inl ⟨rfl, rfl⟩
        · exact absurd rfl hk
        · exact Or.inr (Or.inr ⟨rfl, rfl⟩)
      · rintro (⟨rfl, rfl⟩ | ⟨rfl, rfl⟩ | ⟨rfl, rfl⟩)
        · exact Or.inl ⟨rfl, rfl⟩
        · exact absurd rfl hk
        · exact Or.inr (Or.inr ⟨rfl, rfl⟩)
    · simp only [chunkHeaders, baseHeaders, List.cons_append, List.nil_append,
        List.mem_cons, List.not_mem_nil, or_false, Prod.mk.injEq]
      constructor
      · rintro (⟨rfl, rfl⟩ | ⟨rfl, rfl⟩ | ⟨rfl, rfl⟩ | ⟨rfl, rfl⟩)
        · exact Or.inl ⟨rfl, rfl⟩
        · exact Or.inr (Or.inl ⟨rfl, rfl⟩)
        · exact absurd rfl hk
        · exact Or.inr (Or.inr (Or.inr ⟨rfl, rfl⟩))
      · rintro (⟨rfl, rfl⟩ | ⟨rfl, rfl⟩ | ⟨rfl, rfl⟩ | ⟨rfl, rfl⟩)
        · exact Or.inl ⟨rfl, rfl⟩
        · exact Or.inr (Or.inl ⟨rfl, rfl⟩)
        · exact absurd rfl hk
        · exact Or.inr (Or.inr (Or.inr ⟨rfl, rfl⟩))

/-- Witness for C5: the `X-File-Name` header of chunk 0 and chunk 1 of a
job with an auth token agree. -/
theorem chunk_headers_exact_witness :
    ("X-File-Name", "a.snap")
        ∈ chunkHeaders (baseHeaders (some "tok")) "a.snap" 0 3 ↔
    ("X-File-Name", "a.snap")
        ∈ chunkHeaders (baseHeaders (some "tok")) "a.snap" 1 3 :=
  (chunk_headers_exact (some "tok") "a.snap" 3 0).2 1 "X-File-Name" "a.snap"
    (by decide)

/-- C7: invoking `send` on a path that does not exist exits with the
nonzero code 1 and issues no network request at all. -/
theorem send_missing_file (fileSize : Nat) (url : Option String)
    (forceChunk : Bool) (directResp : HttpResponse)
    (chunkResp : Nat → HttpResponse) (order : List Nat) :
    send false fileSize url forceChunk directResp chunkResp order
      = { outcome := SendOutcome.errFileNotFound, exitCode := 1,
          requests := 0 } := by
  rfl

/-- C8 (code behavior at the failing input): a 1 MiB file routed to the
direct path whose upload returns status 500 is reported as a failed
upload, yet `send` completes with exit code 0 — `_send_direct` prints
the failure without raising `typer.Exit(1)`, so the command-line surface
signals success. -/
theorem send_direct_failure_exits_zero :
    send true (1024 * 1024) (some "http://x") false
        (HttpResponse.status 500) (fun _ => HttpResponse.status 200) []
      = { outcome := SendOutcome.direct (DirectOutcome.failedStatus 500),
          exitCode := 0, requests := 1 } := by
  rfl

/-- Boolean success test of one chunk outcome. -/
def isOk (r : Except ChunkError Unit) : Bool :=
  match r with
  | Except.ok _ => true
  | Except.error _ => false

lemma observe_stuck (o : Nat → Except ChunkError Unit) (s : OrchState)
    (i : Nat) (r : JobResult) (h : s.result = some r) : observe o s i = s := by
  unfold observe
  rw [h]

lemma observe_ok (o : Nat → Except ChunkError Unit) (s : OrchState) (i : Nat)
    (u : Unit) (h : s.result = none) (h2 : o i = Except.ok u) :
    observe o s i = { s with completed := s.completed + 1 } := by
  unfold observe
  rw [h, h2]

lemma observe_err (o : Nat → Except ChunkError Unit) (s : OrchState) (i : Nat)
    (e : ChunkError) (h : s.result = none) (h2 : o i = Except.error e) :
    observe o s i = { s with result := some (JobResult.aborted e) } := by
  unfold observe
  rw [h, h2]

lemma runFrom_nil (o : Nat → Except ChunkError Unit) (s : OrchState) :
    runFrom o s [] = s := rfl

lemma runFrom_cons (o : Nat → Except ChunkError Unit) (s : OrchState)
    (j : Nat) (rest : List Nat) :
    runFrom o s (j :: rest) = runFrom o (observe o s j) rest := rfl

lemma runFrom_append (o : Nat → Except ChunkError Unit) (s : OrchState)
    (l₁ l₂ : List Nat) :
    runFrom o s (l₁ ++ l₂) = runFrom o (runFrom o s l₁) l₂ := by
  simp [runFrom, List.foldl_append]

lemma runFrom_stuck (o : Nat → Except ChunkError Unit) (order : List Nat)
    (s : OrchState) (r : JobResult) (h : s.result = some r) :
    runFrom o s order = s := by
  induction order with
  | nil => rfl
  | cons j rest ih =>
      rw [runFrom_cons, observe_stuck o s j r h]
      exact ih

lemma observe_completed_ge (o : Nat → Except ChunkError Unit) (s : OrchState)
    (i : Nat) : s.completed ≤ (observe o s i).completed := by
  rcases hr : s.result with _ | r
  · rcases hoi : o i with e | u
    · rw [observe_err o s i e hr hoi]
    · rw [observe_ok o s i u hr hoi]
      exact Nat.le_succ _
  · rw [observe_stuck o s i r hr]

lemma runFrom_completed_ge (o : Nat → Except ChunkError Unit)
    (order : List Nat) : ∀ s : OrchState,
    s.completed ≤ (runFrom o s order).completed := by
  induction order with
  | nil =>
      intro s
      exact Nat.le_refl _
  | cons j rest ih =>
      intro s
      rw [runFrom_cons]
      exact Nat.le_trans (observe_completed_ge o s j) (ih (observe o s j))

lemma runFrom_completed_le_countP (o : Nat → Except ChunkError Unit)
    (order : List Nat) : ∀ s : OrchState,
    (runFrom o s order).completed
      ≤ s.completed + order.countP (fun i => isOk (o i)) := by
  induction order with
  | nil =>
      intro s
      simp [runFrom_nil]
  | cons j rest ih =>
      intro s
      rw [runFrom_cons, List.countP_cons]
      rcases hr : s.result with _ | r
      · rcases hoj : o j with e | u
        · rw [observe_err o s j e hr hoj,
            runFrom_stuck o rest _ (JobResult.aborted e) rfl]
          have hs2 : ({ s with result := some (JobResult.aborted e) }
              : OrchState).completed = s.completed := rfl
          omega
        · rw [observe_ok o s j u hr hoj]
          have hite : (if isOk (Except.ok u) = true then 1 else 0) = 1 := rfl
          have h2 := ih { s with completed := s.completed + 1 }
          have hs : ({ s with completed := s.completed + 1 }
              : OrchState).completed = s.completed + 1 := rfl
          omega
      · rw [observe_stuck o s j r hr, runFrom_stuck o rest s r hr]
        omega

lemma runFrom_result_none_sources (o : Nat → Except ChunkError Unit)
    (order : List Nat) : ∀ s : OrchState,
    (runFrom o s order).result = none →
    s.result = none ∧ ∀ i ∈ order, isOk (o i) = true := by
  induction order with
  | nil =>
      intro s h
      exact ⟨h, by simp⟩
  | cons j rest ih =>
      intro s h
      rw [runFrom_cons] at h
      rcases hr : s.result with _ | r
      · rcases hoj : o j with e | u
        · rw [observe_err o s j e hr hoj,
            runFrom_stuck o rest _ (JobResult.aborted e) rfl] at h
          exact Option.noConfusion h
        · rw [observe_ok o s j u hr hoj] at h
          have h2 := ih _ h
          refine ⟨rfl, ?_⟩
          intro i hi
          rcases List.mem_cons.1 hi with rfl | hi
          · rw [hoj]
            rfl
          · exact h2.2 i hi
      · rw [observe_stuck o s j r hr, runFrom_stuck o rest s r hr] at h
        rw [hr] at h
        exact Option.noConfusion h

lemma runFrom_result_some_source (o : Nat → Except ChunkError Unit)
    (order : List Nat) : ∀ (s : OrchState) (r : JobResult),
    (runFrom o s order).result = some r →
    s.result = some r
  ∨ ∃ i ∈ order, ∃ e, o i = Except.error e ∧ r = JobResult.aborted e := by
  induction order with
  | nil =>
      intro s r h
      exact Or.inl h
  | cons j rest ih =>
      intro s r h
      rw [runFrom_cons] at h
      rcases hr : s.result with _ | r₀
      · rcases hoj : o j with e | u
        · rw [observe_err o s j e hr hoj,
            runFrom_stuck o rest _ (JobResult.aborted e) rfl] at h
          have h2 : JobResult.aborted e = r := Option.some.inj h
          exact Or.inr ⟨j, List.mem_cons_self j rest, e, hoj, h2.symm⟩
        · rw [observe_ok o s j u hr hoj] at h
          rcases ih _ r h with h2 | ⟨i, hi, e, he, hre⟩
          · have h3 : s.result = some r := h2
            rw [hr] at h3
            exact Option.noConfusion h3
          · exact Or.inr ⟨i, List.mem_cons_of_mem j hi, e, he, hre⟩
      · rw [observe_stuck o s j r₀ hr, runFrom_stuck o rest s r₀ hr] at h
        exact Or.inl (hr ▸ h)

/-- C6: the completed-chunk counter starts at 0, is incremented by
exactly 1 only when a successful chunk completion is observed while the
job is live, is monotonically non-decreasing over the job's lifetime,
and never exceeds `totalChunks` when the completion order delivers each
of the `n` submitted futures exactly once. -/
theorem completed_counter_invariants (o : Nat → Except ChunkError Unit)
    (n : Nat) :
    (runChunked o []).completed = 0
  ∧ (∀ s i, s.result = none → o i = Except.ok () →
       (observe o s i).completed = s.completed + 1)
  ∧ (∀ s i, ¬(s.result = none ∧ o i = Except.ok ()) →
       (observe o s i).completed = s.completed)
  ∧ (∀ l₁ l₂ : List Nat,
       (runChunked o l₁).completed ≤ (runChunked o (l₁ ++ l₂)).completed)
  ∧ (∀ order : List Nat, order.Perm (List.range n) →
       (runChunked o order).completed ≤ n) := by
  refine ⟨rfl, ?_, ?_, ?_, ?_⟩
  · intro s i hs ho
    rw [observe_ok o s i () hs ho]
  · intro s i hne
    rcases hr : s.result with _ | r
    · rcases hoj : o i with e | u
      · rw [observe_err o s i e hr hoj]
      · cases u
        exact absurd ⟨hr, hoj⟩ hne
    · rw [observe_stuck o s i r hr]
  · intro l₁ l₂
    unfold runChunked
    rw [runFrom_append]
    exact runFrom_completed_ge o l₂ _
  · intro order hperm
    have h1 := runFrom_completed_le_countP o order
      { completed := 0, result := none }
    have hs : ({ completed := 0, result := none } : OrchState).completed = 0 :=
      rfl
    have h2 : order.countP (fun i => isOk (o i))
        = (List.range n).countP (fun i => isOk (o i)) :=
      hperm.countP_eq _
    have h3 : (List.range n).countP (fun i => isOk (o i))
        ≤ (List.range n).length :=
      List.countP_le_length _
    simp only [List.length_range] at h3
    unfold runChunked
    omega

/-- Witness for C6: two successful completions out of two submitted
chunks leave the counter at most 2. -/
theorem completed_counter_invariants_witness :
    (runChunked (fun _ => Except.ok ()) [0, 1]).completed ≤ 2 :=
  (completed_counter_invariants (fun _ => Except.ok ()) 2).2.2.2.2 [0, 1]
    (by decide)

/-- Per-chunk responses of the spec's chunked-upload scenario: chunk 1
answers HTTP 500, every other chunk answers HTTP 200. -/
def scenarioResp (i : Nat) : HttpResponse :=
  if i = 1 then HttpResponse.status 500 else HttpResponse.status 200

/-- The chunk outcomes `_upload_chunk` produces under `scenarioResp`. -/
def scenarioOutcome (i : Nat) : Except ChunkError Unit :=
  uploadChunk i (scenarioResp i)

/-- C3: for a 25 MiB file, `_send_chunked` materializes exactly three
chunks of sizes 10 MiB, 10 MiB and 5 MiB; if chunk 1 returns HTTP 500
then, whatever order the three completions are observed in, the job
aborts with failed index 1 and reason "Status 500" (no chunk is ever
retried: exactly one task per chunk is submitted), and the
completed-chunk counter never reaches 3 at any point of the run. -/
theorem abort_on_first_failure (order : List Nat)
    (hperm : order.Perm (List.range 3)) :
    (chunkTasks (25 * 1024 * 1024)).map ChunkTask.length
        = [10 * 1024 * 1024, 10 * 1024 * 1024, 5 * 1024 * 1024]
  ∧ (chunkTasks (25 * 1024 * 1024)).length = 3
  ∧ jobResult scenarioOutcome order
      = JobResult.aborted { index := 1, reason := "Status 500" }
  ∧ chunkErrorMsg { index := 1, reason := "Status 500" }
      = "Chunk 1 error: Status 500"
  ∧ (∀ l₁ l₂, order = l₁ ++ l₂ →
       (runFrom scenarioOutcome { completed := 0, result := none }
         l₁).completed < 3) := by
  have hmem1 : 1 ∈ order := hperm.mem_iff.2 (by decide)
  have ho1 : scenarioOutcome 1
      = Except.error { index := 1, reason := "Status 500" } := rfl
  have hcount : order.countP (fun i => isOk (scenarioOutcome i))
      = (List.range 3).countP (fun i => isOk (scenarioOutcome i)) :=
    hperm.countP_eq _
  have hcount3 : (List.range 3).countP (fun i => isOk (scenarioOutcome i))
      = 2 := by decide
  refine ⟨by decide, by decide, ?_, by decide, ?_⟩
  · unfold jobResult
    rcases hres : (runChunked scenarioOutcome order).result with _ | r
    · exfalso
      have h2 := runFrom_result_none_sources scenarioOutcome order
        { completed := 0, result := none } hres
      have h3 := h2.2 1 hmem1
      rw [ho1] at h3
      simp [isOk] at h3
    · have h2 := runFrom_result_some_source scenarioOutcome order
        { completed := 0, result := none } r hres
      rcases h2 with h2 | ⟨i, hi, e, he, rfl⟩
      · exact absurd h2 (by simp)
      · have hi3 : i ∈ List.range 3 := hperm.mem_iff.1 hi
        have hi3b : i < 3 := List.mem_range.1 hi3
        interval_cases i
        · rw [show scenarioOutcome 0 = Except.ok () from rfl] at he
          exact Except.noConfusion he
        · rw [ho1] at he
          injection he with h4
          show JobResult.aborted e
              = JobResult.aborted { index := 1, reason := "Status 500" }
          rw [← h4]
        · rw [show scenarioOutcome 2 = Except.ok () from rfl] at he
          exact Except.noConfusion he
  · intro l₁ l₂ hsplit
    have h1 := runFrom_completed_le_countP scenarioOutcome l₁
      { completed := 0, result := none }
    have hs0 : ({ completed := 0, result := none } : OrchState).completed = 0 :=
      rfl
    have h2 : l₁.countP (fun i => isOk (scenarioOutcome i))
        ≤ order.countP (fun i => isOk (scenarioOutcome i)) := by
      rw [hsplit, List.countP_append]
      omega
    omega

/-- Witness for C3 with the in-index-order completion sequence. -/
theorem abort_on_first_failure_witness :
    (chunkTasks (25 * 1024 * 1024)).map ChunkTask.length
        = [10 * 1024 * 1024, 10 * 1024 * 1024, 5 * 1024 * 1024]
  ∧ (chunkTasks (25 * 1024 * 1024)).length = 3
  ∧ jobResult scenarioOutcome [0, 1, 2]
      = JobResult.aborted { index := 1, reason := "Status 500" }
  ∧ chunkErrorMsg { index := 1, reason := "Status 500" }
      = "Chunk 1 error: Status 500"
  ∧ (∀ l₁ l₂, [0, 1, 2] = l₁ ++ l₂ →
       (runFrom scenarioOutcome { completed := 0, result := none }
         l₁).completed < 3) :=
  abort_on_first_failure [0, 1, 2] (by decide)

/-- C10: a file of size 0 sent with the force-chunk flag is routed to
the chunked path, which computes `totalChunks = 0`, materializes no
chunk task, issues no upload request, and reports full success with
exit code 0. -/
theorem empty_file_chunked_success (order : List Nat)
    (hperm : order.Perm (List.range (totalChunks 0))) :
    plan 0 true = Mode.chunked
  ∧ totalChunks 0 = 0
  ∧ chunkTasks 0 = []
  ∧ (∀ u directResp chunkResp,
       send true 0 (some u) true directResp chunkResp order
         = { outcome := SendOutcome.chunked JobResult.success,
             exitCode := 0, requests := 0 }) := by
  have h0 : totalChunks 0 = 0 := by decide
  have horder : order = [] := by
    rw [h0, List.range_zero] at hperm
    exact hperm.eq_nil
  subst horder
  refine ⟨rfl, h0, by decide, ?_⟩
  intro u directResp chunkResp
  rfl

/-- Witness for C10 with the empty completion order. -/
theorem empty_file_chunked_success_witness :
    plan 0 true = Mode.chunked
  ∧ totalChunks 0 = 0
  ∧ chunkTasks 0 = []
  ∧ (∀ u directResp chunkResp,
       send true 0 (some u) true directResp chunkResp []
         = { outcome := SendOutcome.chunked JobResult.success,
             exitCode := 0, requests := 0 }) :=
  empty_file_chunked_success [] (by decide)

/-- The metadata record as consumed by the `check` command
(cli.py lines 219-239): optional fields are `none` when absent from the
parsed JSON record. -/
structure SnapshotMetadata where
  author : Option String
  timestamp : Option Nat
  tool_version : Option String
  comment : Option String
deriving Repr, DecidableEq

/-- The rows of the metadata panel printed by `check`
(cli.py lines 228-237): `meta.get("author", "Unknown")`,
`meta.get("timestamp", 0)` rendered through a date formatter,
`meta.get("tool_version", "Unknown")`, and a comment row only when
`meta.get("comment")` is truthy (present and non-empty). -/
def checkRows (h : String) (formatDate : Nat → String)
    (m : SnapshotMetadata) : List (String × String) :=
  [("SHA256:", h),
   ("Author:", m.author.getD "Unknown"),
   ("Created:", formatDate (m.timestamp.getD 0)),
   ("Format:", m.tool_version.getD "Unknown")]
  ++ (match m.comment with
      | some c => if c = "" then [] else [("Comment:", c)]
      | none => [])

/-- C9: in the `check` command's metadata display, an absent author and
an absent tool version resolve to the default string "Unknown" at read
time, every displayed row is a concrete string pair (no null reaches the
display logic), and an absent comment is not an error — the panel is
still produced, just without a comment row. -/
theorem check_defaults (h : String) (formatDate : Nat → String)
    (m : SnapshotMetadata) :
    (m.author = none → ("Author:", "Unknown") ∈ checkRows h formatDate m)
  ∧ (m.tool_version = none → ("Format:", "Unknown") ∈ checkRows h formatDate m)
  ∧ (m.comment = none →
       checkRows h formatDate m
         = [("SHA256:", h),
            ("Author:", m.author.getD "Unknown"),
            ("Created:", formatDate (m.timestamp.getD 0)),
            ("Format:", m.tool_version.getD "Unknown")]
     ∧ ∀ v, ("Comment:", v) ∉ checkRows h formatDate m)
  ∧ (m.comment = some "x" → ("Comment:", "x") ∈ checkRows h formatDate m) := by
  refine ⟨?_, ?_, ?_, ?_⟩
  · intro ha
    simp [checkRows, ha]
  · intro ht
    simp [checkRows, ht]
  · intro hc
    constructor
    · simp [checkRows, hc]
    · intro v
      simp [checkRows, hc]
  · intro hc
    simp [checkRows, hc]

/-- Witness for C9 at a fully-absent metadata record. -/
theorem check_defaults_witness :
    ("Author:", "Unknown")
      ∈ checkRows "deadbeef" (fun _ => "1970-01-01 00:00:00")
          { author := none, timestamp := none, tool_version := none,
            comment := none } :=
  (check_defaults "deadbeef" (fun _ => "1970-01-01 00:00:00")
    { author := none, timestamp := none, tool_version := none,
      comment := none }).1 rfl

end Vegh
